import Mathlib

/-!
Verification of the device tray widget (`qui/tray/devices.py`) of
qubes-desktop-linux-manager.

Shallow embedding conventions:
* Python `dict` (insertion ordered, unique keys) is an association list
  `List (String × α)`; `Dict.insert` updates in place or appends, `Dict.erase`
  removes the key, mirroring `d[k] = v` / `del d[k]`.
* Python `set` of strings is a `List String` with `setAdd` / `setDiscard`
  mirroring `set.add` / `set.discard` (add appends when absent).
* A qubesadmin VM handle is represented by its name string; `str(vm)` is the
  name.  Admin-API calls that may raise are oracles of type `Except Unit _`:
  `.error ()` is the raised `QubesException` / access error.
* `Device.__init__` wraps an admin device; its constructor output is the
  record below (the `data` dict is not used by any verified operation and is
  omitted).  `Device.__eq__` compares `str(self) == str(other)`, i.e. the
  `dev_name` field against the stringification of the other operand.
* GObject notifications are values of `Notification`; GLib timers scheduled
  with `GLib.timeout_add(5000, cb, dev)` are recorded as `Timer` values.
  Handlers return their new state together with the timers scheduled and the
  notifications emitted during the call.
-/

/-- `Gio.NotificationPriority`. -/
inductive NotificationPriority
  | low
  | normal
  | high
  deriving DecidableEq, Repr

/-- A notification as assembled by `DevicesTray.emit_notification`. -/
structure Notification where
  title : String
  body : String
  priority : NotificationPriority
  error : Bool
  notification_id : Option String
  deriving DecidableEq, Repr

/-- `DevicesTray.emit_notification`: builds the notification; when `error`
is set the notification id (if any) gets `'ERROR'` appended. -/
def emit_notification (title message : String) (priority : NotificationPriority)
    (error : Bool) (notification_id : Option String) : Notification :=
  { title := title
    body := message
    priority := priority
    error := error
    notification_id :=
      if error then notification_id.map (fun i => i ++ "ERROR") else notification_id }

/-- The `Device` wrapper class (constructor output).  `dev_name = str(dev)`,
`backend_domain = str(dev.backend_domain)`, `attachments` starts empty at
construction. -/
structure Device where
  dev_name : String
  ident : String
  description : String
  devclass : String
  attachments : List String
  backend_domain : String
  vm_icon : String
  deriving DecidableEq, Repr

/-- The `VM` wrapper class: name and icon (icon falls back to
`'appvm-black'` at construction when the label is unreadable). -/
structure VMrec where
  vm_name : String
  icon : String
  deriving DecidableEq, Repr

/-- A pending `GLib.timeout_add(delay_ms, callback, dev)` expiry timer. -/
structure Timer where
  delay_ms : Nat
  dev : Device
  deriving DecidableEq, Repr

/-- `DEV_TYPES`: the fixed list of device classes the tray handles. -/
def DEV_TYPES : List String := ["block", "usb", "mic"]

/-- Python `dict` keyed by strings, as an insertion-ordered association
list with unique keys. -/
abbrev Dict (α : Type) := List (String × α)

/-- `d[k]` lookup (`None` when absent): the first entry with the key wins
(a Python dict holds each key at most once). -/
def Dict.lookup {α : Type} : Dict α → String → Option α
  | [], _ => none
  | p :: d, k => if p.1 == k then some p.2 else Dict.lookup d k

/-- `d[k] = v`: update the entry in place when the key is present, else
append a new entry (Python dicts keep insertion order). -/
def Dict.insert {α : Type} : Dict α → String → α → Dict α
  | [], k, v => [(k, v)]
  | p :: d, k, v => if p.1 == k then (k, v) :: d else p :: Dict.insert d k v

/-- `del d[k]`. -/
def Dict.erase {α : Type} (d : Dict α) (k : String) : Dict α :=
  d.filter (fun p => p.1 ≠ k)

/-- In-place mutation of the value stored at `k` (e.g.
`d[k].attachments.add(...)`); other entries are untouched. -/
def Dict.modify {α : Type} (d : Dict α) (k : String) (f : α → α) : Dict α :=
  d.map (fun p => if p.1 == k then (p.1, f p.2) else p)

/-- Python `set.add` on a set-of-strings modelled as a list. -/
def setAdd (l : List String) (s : String) : List String :=
  if s ∈ l then l else l ++ [s]

/-- Python `set.discard` on a set-of-strings modelled as a list. -/
def setDiscard (l : List String) (s : String) : List String :=
  l.filter (fun x => x ≠ s)

/-- Insert a string into an already sorted list (helper for `pyStringSort`). -/
def insertSorted (s : String) : List String → List String
  | [] => [s]
  | x :: xs => if s ≤ x then s :: x :: xs else x :: insertSorted s xs

/-- Python `list.sort()` on a list of strings (stable, ascending). -/
def pyStringSort : List String → List String
  | [] => []
  | x :: xs => insertSorted x (pyStringSort xs)

/-- Result of a Python `__eq__` call: a boolean, or `NotImplemented`. -/
inductive PyEqResult
  | notImplemented
  | result (b : Bool)
  deriving DecidableEq, Repr

/-- `str.__eq__` applied to a `Device` argument: `NotImplemented`, because
the right operand is not a `str`. -/
def strEqDevice (_s : String) (_d : Device) : PyEqResult :=
  .notImplemented

/-- `Device.__eq__` (source line 198): `str(self) == str(other)`; the other
operand here is a string, so this compares `dev_name` with it. -/
def deviceEqPy (d : Device) (other : String) : PyEqResult :=
  .result (d.dev_name == other)

/-- Python's `name == dev` for a string and a `Device`: first
`str.__eq__` (which is `NotImplemented`), then the reflected
`Device.__eq__`; identity comparison (always false for distinct objects)
is the last resort. -/
def pyEq (s : String) (d : Device) : Bool :=
  match strEqDevice s d with
  | .result b => b
  | .notImplemented =>
    match deviceEqPy d s with
    | .result b => b
    | .notImplemented => false

/-- Python's `name in changed_devices` for a string and a list of
`Device` records, as evaluated in `device_list_update` line 346. -/
def pyListContains (s : String) (l : List Device) : Bool :=
  l.any (pyEq s)

/-- The canonical membership test the spec asks for: some record in the
list has `dev_name` equal to the key string. -/
def keyListContains (s : String) (l : List Device) : Bool :=
  l.any (fun d => d.dev_name == s)

/-- Python `list.remove(dev)` on a list of `Device`s: drop the first
element equal (by `Device.__eq__`, i.e. by `dev_name`) to the argument. -/
def removeFirstByName (name : String) : List Device → List Device
  | [] => []
  | d :: ds => if d.dev_name == name then ds else d :: removeFirstByName name ds

/-- The mutable state of `DevicesTray`: the device registry `self.devices`,
the running-VM set `self.vms`, and the two notification buffers
`self.devs_added` / `self.devs_removed` (keyed by VM name). -/
structure TrayState where
  devices : Dict Device
  vms : List VMrec
  devs_added : Dict (List Device)
  devs_removed : Dict (List Device)
  deriving DecidableEq, Repr

/-- `DevicesTray.__init__`'s empty state (before the initial snapshot). -/
def emptyTray : TrayState :=
  { devices := [], vms := [], devs_added := [], devs_removed := [] }

/-- `DevicesTray._remove_notify_added(dev)`: the expiry callback.  It drops
`dev` (first occurrence equal by name) from every VM's added-buffer that
contains it, then deletes every VM whose buffer is empty.  It emits no
notification. -/
def _remove_notify_added (dev : Device) (st : TrayState) :
    TrayState × List Notification :=
  let bufs := st.devs_added.map (fun p =>
    (p.1, if p.2.any (fun d => d.dev_name == dev.dev_name) then
            removeFirstByName dev.dev_name p.2
          else p.2))
  ({ st with devs_added := bufs.filter (fun p => ¬ p.2.isEmpty) }, [])

/-- `DevicesTray._remove_notify_removed(dev)`: same as
`_remove_notify_added` but over the removed-buffers. -/
def _remove_notify_removed (dev : Device) (st : TrayState) :
    TrayState × List Notification :=
  let bufs := st.devs_removed.map (fun p =>
    (p.1, if p.2.any (fun d => d.dev_name == dev.dev_name) then
            removeFirstByName dev.dev_name p.2
          else p.2))
  ({ st with devs_removed := bufs.filter (fun p => ¬ p.2.isEmpty) }, [])

/-- The fold of `notify_devices_added`'s insertion loop: append each device
not already known (by name), scheduling one 5000 ms timer per append. -/
def notifyFold (devs : List Device) (init : List Device × List Timer) :
    List Device × List Timer :=
  devs.foldl (fun kt dev =>
    if kt.1.any (fun d => d.dev_name == dev.dev_name) then kt
    else (kt.1 ++ [dev], kt.2 ++ [{ delay_ms := 5000, dev := dev }])) init

/-- `DevicesTray.notify_devices_added(vm, devs)`: extend the VM's
added-buffer with the not-yet-buffered devices, schedule a timer per newly
buffered device, and emit one notification whose body lists the whole
buffer's descriptions sorted, under id `'device-added-' + vm.name`. -/
def notify_devices_added (vmName : String) (devs : List Device) (st : TrayState) :
    TrayState × List Timer × List Notification :=
  let known := (Dict.lookup st.devs_added vmName).getD []
  let kt := notifyFold devs (known, [])
  let lines := pyStringSort (kt.1.map (fun d => d.description))
  let body := String.intercalate "\n" lines
  let tag := "device-added-" ++ vmName
  ({ st with devs_added := Dict.insert st.devs_added vmName kt.1 },
   kt.2,
   [emit_notification ("Devices added on " ++ vmName) body .low false (some tag)])

/-- `DevicesTray.notify_devices_removed(vm, devs)`: symmetric to
`notify_devices_added`, over the removed-buffer, under id
`'device-removed-' + vm.name`. -/
def notify_devices_removed (vmName : String) (devs : List Device) (st : TrayState) :
    TrayState × List Timer × List Notification :=
  let known := (Dict.lookup st.devs_removed vmName).getD []
  let kt := notifyFold devs (known, [])
  let lines := pyStringSort (kt.1.map (fun d => d.description))
  let body := String.intercalate "\n" lines
  let tag := "device-removed-" ++ vmName
  ({ st with devs_removed := Dict.insert st.devs_removed vmName kt.1 },
   kt.2,
   [emit_notification ("Devices removed on " ++ vmName) body .low false (some tag)])

/-- The `added` loop of `device_list_update`: insert every enumerated
device whose key is not yet in the registry, collecting them in order. -/
def addedFold (changed : List Device) (init : Dict Device × List Device) :
    Dict Device × List Device :=
  changed.foldl (fun da dev =>
    if (Dict.lookup da.1 dev.dev_name).isSome then da
    else (Dict.insert da.1 dev.dev_name dev, da.2 ++ [dev])) init

/-- The registry delta of `device_list_update`: given the freshly
enumerated list, returns the new registry together with the `added` and
`removed` lists the handler passes to the notifiers.  The removal filter
uses the handler's own `name not in changed_devices` test
(`pyListContains`). -/
def device_list_delta (vmName : String) (changed_devices : List Device)
    (devices : Dict Device) : Dict Device × List Device × List Device :=
  let da := addedFold changed_devices (devices, [])
  let removed_names := (da.1.filter (fun p =>
    p.2.backend_domain == vmName && !(pyListContains p.1 changed_devices))).map
      (fun p => p.1)
  let removed := removed_names.filterMap (fun n => Dict.lookup da.1 n)
  let devices2 := removed_names.foldl (fun ds n => Dict.erase ds n) da.1
  (devices2, da.2, removed)

/-- `DevicesTray.device_list_update(vm, ...)`: re-enumerate the VM's
devices over all of `DEV_TYPES` (`enum` is the enumeration oracle; a raised
`QubesException` yields the empty list), apply the delta to the registry,
and notify about non-empty added/removed lists. -/
def device_list_update (vmName : String) (enum : Except Unit (List Device))
    (st : TrayState) : TrayState × List Timer × List Notification :=
  let changed_devices := match enum with
    | .ok l => l
    | .error _ => []
  let dar := device_list_delta vmName changed_devices st.devices
  let st1 := { st with devices := dar.1 }
  let r1 := if dar.2.1.length > 0 then notify_devices_added vmName dar.2.1 st1
            else (st1, [], [])
  let r2 := if dar.2.2.length > 0 then notify_devices_removed vmName dar.2.2 r1.1
            else (r1.1, [], [])
  (r2.1, r1.2.1 ++ r2.2.1, r1.2.2 ++ r2.2.2)

/-- `DevicesTray.device_attached(vm, _event, device)`: ignore the event
when `vm.is_running()` raises or is false or the device class is not
handled; otherwise register the device if unknown (a fresh `Device` has no
attachments) and add the VM name to its attachment set. -/
def device_attached (vmName : String) (running : Except Unit Bool)
    (dev : Device) (st : TrayState) : TrayState :=
  match running with
  | .error _ => st
  | .ok r =>
    if !r || !(DEV_TYPES.contains dev.devclass) then st
    else
      let ds := if (Dict.lookup st.devices dev.dev_name).isSome then st.devices
                else Dict.insert st.devices dev.dev_name { dev with attachments := [] }
      { st with devices :=
          Dict.modify ds dev.dev_name (fun d =>
            { d with attachments := setAdd d.attachments vmName }) }

/-- `DevicesTray.device_detached(vm, _event, device)`: ignore the event
when `vm.is_running()` raises or is false; otherwise, if the device key is
known, discard the VM name from its attachment set. -/
def device_detached (vmName : String) (running : Except Unit Bool)
    (devName : String) (st : TrayState) : TrayState :=
  match running with
  | .error _ => st
  | .ok r =>
    if !r then st
    else if (Dict.lookup st.devices devName).isSome then
      { st with devices :=
          Dict.modify st.devices devName (fun d =>
            { d with attachments := setDiscard d.attachments vmName }) }
    else st

/-- `DevicesTray.vm_shutdown(vm, _event)`: drop the VM from the running
set and discard its name from every device's attachment set. -/
def vm_shutdown (vmName : String) (st : TrayState) : TrayState :=
  { st with
    vms := st.vms.filter (fun w => w.vm_name ≠ vmName)
    devices := st.devices.map (fun p =>
      (p.1, { p.2 with attachments := setDiscard p.2.attachments vmName })) }

/-- The VM argument of a `property-set:label` event: reading `vm.name` or
`vm.label.icon` may raise `QubesPropertyAccessError`. -/
structure VMEventSource where
  name : Except Unit String
  labelIcon : Except Unit String

/-- `DevicesTray.on_label_changed(vm, _event)`: a missing VM or an
unreadable name is ignored; otherwise every tracked VM with that name gets
the new label icon (falling back to `'appvm-block'` on an access error) and
every device backed by that VM gets it as `vm_icon` (falling back to
`'appvm-black'`). -/
def on_label_changed (vm : Option VMEventSource) (st : TrayState) : TrayState :=
  match vm with
  | none => st
  | some v =>
    match v.name with
    | .error _ => st
    | .ok name =>
      let vms1 := st.vms.map (fun d =>
        if d.vm_name == name then
          { d with icon := match v.labelIcon with
              | .ok i => i
              | .error _ => "appvm-block" }
        else d)
      let devs1 := st.devices.map (fun p =>
        (p.1,
         if p.2.backend_domain == name then
           { p.2 with vm_icon := match v.labelIcon with
               | .ok i => i
               | .error _ => "appvm-black" }
         else p.2))
      { st with vms := vms1, devices := devs1 }

/-- A domain as seen by the initial snapshot loader: its name, its device
enumeration per device class, and its attached-device listing per device
class (each listing may raise). -/
structure DomSnapshot where
  name : String
  devs : String → Except Unit (List Device)
  attached : String → Except Unit (List String)

/-- First loop of `initialize_dev_data`: record every enumerable device of
one domain, skipping device classes whose enumeration raises. -/
def snapshotDevsDom (acc : Dict Device) (dom : DomSnapshot) : Dict Device :=
  DEV_TYPES.foldl (fun a dc =>
    match dom.devs dc with
    | .error _ => a
    | .ok l => l.foldl (fun a2 d => Dict.insert a2 d.dev_name d) a) acc

/-- Second loop of `initialize_dev_data`: record one domain's attachments
for every known device, skipping device classes whose listing raises. -/
def snapshotAttachedDom (acc : Dict Device) (dom : DomSnapshot) : Dict Device :=
  DEV_TYPES.foldl (fun a dc =>
    match dom.attached dc with
    | .error _ => a
    | .ok l => l.foldl (fun a2 n =>
        if (Dict.lookup a2 n).isSome then
          Dict.modify a2 n (fun d =>
            { d with attachments := setAdd d.attachments dom.name })
        else a2) a) acc

/-- `DevicesTray.initialize_dev_data()`: list all devices of all domains,
then all existing attachments, tolerating per-(domain, devclass) access
errors by skipping the failing listing. -/
def initialize_dev_data (domains : List DomSnapshot) : Dict Device :=
  let devices1 := domains.foldl snapshotDevsDom []
  domains.foldl snapshotAttachedDom devices1

/-- An external admin-API call issued by the `DomainMenu` coordinator. -/
inductive ExtCall
  | detach (vmName : String)
  | attach (vmName : String)
  deriving DecidableEq, Repr

/-- A domain as seen by `update_dev_attachments`' reconciliation read: its
name and its attached-device name listing for the device's class (which may
raise `QubesDaemonAccessError`). -/
structure ResyncDomain where
  name : String
  attachedNames : Except Unit (List String)

/-- The environment of one toggle: the outcome of a detach call per target
VM, the outcome of the attach call, and the domains visible to the
reconciliation read. -/
structure ToggleEnv where
  detachRes : String → Bool
  attachRes : Bool
  domains : List ResyncDomain

/-- `DomainMenu.update_dev_attachments()`: rebuild the device's attachment
set from scratch out of every readable domain's attached-device listing. -/
def update_dev_attachments (dev : Device) (domains : List ResyncDomain) : Device :=
  { dev with attachments :=
      domains.foldl (fun acc dom =>
        match dom.attachedNames with
        | .error _ => acc
        | .ok l => l.foldl (fun a2 n =>
            if n == dev.dev_name then setAdd a2 dom.name else a2) acc) [] }

/-- The notification id used by the toggle coordinator's notifications. -/
def toggleTag (dev : Device) : Option String :=
  some (dev.backend_domain ++ dev.ident)

/-- The loop of `DomainMenu.detach_item()` over the device's current
attachment set: notify, issue the detach call, and on a `QubesException`
emit an error notification, reconcile, and stop reporting failure. -/
def detachLoop (env : ToggleEnv) (dev : Device) :
    List String → List ExtCall → List Notification →
    Bool × Device × List ExtCall × List Notification
  | [], cs, ns => (true, dev, cs, ns)
  | vm :: rest, cs, ns =>
    let ns1 := ns ++ [emit_notification "Detaching device"
      ("Detaching " ++ dev.description ++ " from " ++ vm) .normal false (toggleTag dev)]
    let cs1 := cs ++ [ExtCall.detach vm]
    if env.detachRes vm then detachLoop env dev rest cs1 ns1
    else (false, update_dev_attachments dev env.domains, cs1,
          ns1 ++ [emit_notification "Error"
            ("Detaching device " ++ dev.description ++ " from " ++ vm ++ " failed.")
            .high true (toggleTag dev)])

/-- `DomainMenu.detach_item()`: detach the device from every VM of its
attachment set, aborting on the first failed call. -/
def detach_item (dev : Device) (env : ToggleEnv) :
    Bool × Device × List ExtCall × List Notification :=
  detachLoop env dev dev.attachments [] []

/-- `DomainMenu.attach_item(menu_item)`: detach everywhere first; only when
every detach succeeded, issue the attach call for the target VM, falling
back to an error notification plus reconciliation when it raises. -/
def attach_item (dev : Device) (targetVm : String) (env : ToggleEnv) :
    Device × List ExtCall × List Notification :=
  let r := detach_item dev env
  if !r.1 then (r.2.1, r.2.2.1, r.2.2.2)
  else
    let cs1 := r.2.2.1 ++ [ExtCall.attach targetVm]
    if env.attachRes then
      (r.2.1, cs1, r.2.2.2 ++ [emit_notification "Attaching device"
        ("Attaching " ++ dev.description ++ " to " ++ targetVm) .normal false
        (toggleTag dev)])
    else
      (update_dev_attachments r.2.1 env.domains, cs1,
       r.2.2.2 ++ [emit_notification "Error"
         ("Attaching device " ++ dev.description ++ " to " ++ targetVm ++ " failed.")
         .high true (toggleTag dev)])

/-- Equality of admin-call outcomes is decidable (used to state the event
preconditions executably). -/
instance {e a : Type} [DecidableEq e] [DecidableEq a] : DecidableEq (Except e a) :=
  fun x y =>
    match x, y with
    | .ok u, .ok v =>
      if h : u = v then isTrue (by rw [h]) else isFalse (fun hh => h (Except.ok.inj hh))
    | .error u, .error v =>
      if h : u = v then isTrue (by rw [h]) else isFalse (fun hh => h (Except.error.inj hh))
    | .ok _, .error _ => isFalse (fun hh => Except.noConfusion hh)
    | .error _, .ok _ => isFalse (fun hh => Except.noConfusion hh)

/-- A `device-attach` / `device-detach` event: the VM name, the outcome of
`vm.is_running()`, and the device (a full record for attach, just the key
string for detach, mirroring what each handler uses). -/
inductive DevEvent
  | attach (vmName : String) (running : Except Unit Bool) (dev : Device)
  | detach (vmName : String) (running : Except Unit Bool) (devName : String)
  deriving DecidableEq, Repr

/-- Dispatch one attach/detach event to its handler. -/
def applyDevEvent (st : TrayState) (e : DevEvent) : TrayState :=
  match e with
  | .attach v r d => device_attached v r d st
  | .detach v r n => device_detached v r n st

/-- Process a sequence of attach/detach events in order. -/
def applyDevEvents (st : TrayState) (evs : List DevEvent) : TrayState :=
  evs.foldl applyDevEvent st

/-- The registry's attachment set for a device key (empty when absent). -/
def attachmentsOf (ds : Dict Device) (key : String) : List String :=
  match Dict.lookup ds key with
  | some d => d.attachments
  | none => []

/-- The claim's event preconditions: every event's VM reports running, and
every attach's device class is one the tray handles. -/
def eventsOk (evs : List DevEvent) : Bool :=
  evs.all (fun e =>
    match e with
    | .attach _ r d => decide (r = .ok true) && DEV_TYPES.contains d.devclass
    | .detach _ r _ => decide (r = .ok true))

/-- The claim's other precondition: each detach event's device key is in
the registry at the moment that event is processed. -/
def detachesKnown (st : TrayState) : List DevEvent → Bool
  | [] => true
  | e :: rest =>
    (match e with
     | .detach _ _ n => (Dict.lookup st.devices n).isSome
     | .attach _ _ _ => true) && detachesKnown (applyDevEvent st e) rest

/-- One step of the spec-side attachment history: an attach of the
(key, VM) pair overrides the accumulator with `some true`, a detach with
`some false`, any other event keeps it. -/
def lastStep (key vmName : String) (acc : Option Bool) (e : DevEvent) :
    Option Bool :=
  match e with
  | .attach v _ d => if v == vmName && d.dev_name == key then some true else acc
  | .detach v _ n => if v == vmName && n == key then some false else acc

/-- The spec-side attachment history: the last attach/detach event in the
sequence touching the (device key, VM name) pair, `none` when no event
touches it. -/
def lastAction (evs : List DevEvent) (key vmName : String) : Option Bool :=
  evs.foldl (lastStep key vmName) none

/-! ### Association-list (Python dict) lemmas -/

theorem Dict.lookup_insert_self {α : Type} (d : Dict α) (k : String) (v : α) :
    Dict.lookup (Dict.insert d k v) k = some v := by
  induction d with
  | nil => simp [Dict.insert, Dict.lookup]
  | cons p d ih =>
    by_cases h : p.1 = k
    · simp [Dict.insert, Dict.lookup, h]
    · simp [Dict.insert, Dict.lookup, h, ih]

theorem Dict.lookup_insert_ne {α : Type} (d : Dict α) (k k' : String) (v : α)
    (h : k' ≠ k) :
    Dict.lookup (Dict.insert d k v) k' = Dict.lookup d k' := by
  have hk : k ≠ k' := Ne.symm h
  induction d with
  | nil => simp [Dict.insert, Dict.lookup, hk]
  | cons p d ih =>
    by_cases hp : p.1 = k
    · simp [Dict.insert, Dict.lookup, hp, hk]
    · by_cases hp' : p.1 = k'
      · simp [Dict.insert, Dict.lookup, hp, hp', h, Ne.symm h]
      · simp [Dict.insert, Dict.lookup, hp, hp', ih]

theorem Dict.insert_of_lookup_none {α : Type} (d : Dict α) (k : String) (v : α)
    (h : Dict.lookup d k = none) :
    Dict.insert d k v = d ++ [(k, v)] := by
  induction d with
  | nil => simp [Dict.insert]
  | cons p d ih =>
    by_cases hp : p.1 = k
    · simp [Dict.lookup, hp] at h
    · simp [Dict.lookup, hp] at h
      simp [Dict.insert, hp, ih h]

theorem Dict.lookup_append {α : Type} (d1 d2 : Dict α) (k : String) :
    Dict.lookup (d1 ++ d2) k =
      match Dict.lookup d1 k with
      | some v => some v
      | none => Dict.lookup d2 k := by
  induction d1 with
  | nil => simp [Dict.lookup]
  | cons p d ih =>
    by_cases hp : p.1 = k
    · simp [Dict.lookup, hp]
    · simp [Dict.lookup, hp, ih]

theorem Dict.lookup_eq_none_iff {α : Type} (d : Dict α) (k : String) :
    Dict.lookup d k = none ↔ ∀ p ∈ d, p.1 ≠ k := by
  induction d with
  | nil => simp [Dict.lookup]
  | cons p d ih =>
    by_cases hp : p.1 = k
    · simp [Dict.lookup, hp]
    · simp [Dict.lookup, hp, ih]

theorem Dict.lookup_of_mem_nodup {α : Type} (d : Dict α) (k : String) (v : α)
    (hn : (d.map Prod.fst).Nodup) (hm : (k, v) ∈ d) :
    Dict.lookup d k = some v := by
  induction d with
  | nil => simp at hm
  | cons p d ih =>
    simp only [List.map_cons, List.nodup_cons] at hn
    rcases List.mem_cons.mp hm with h | h
    · simp [Dict.lookup, ← h]
    · have hk : p.1 ≠ k := by
        intro he
        exact hn.1 (by
          have : k ∈ d.map Prod.fst := List.mem_map.mpr ⟨(k, v), h, rfl⟩
          simpa [he] using this)
      simp [Dict.lookup, hk, ih hn.2 h]

theorem Dict.mem_of_lookup {α : Type} (d : Dict α) (k : String) (v : α)
    (h : Dict.lookup d k = some v) : (k, v) ∈ d := by
  induction d with
  | nil => simp [Dict.lookup] at h
  | cons p d ih =>
    by_cases hp : p.1 = k
    · simp [Dict.lookup, hp] at h
      have : p = (k, v) := by
        rcases p with ⟨a, b⟩
        simp at hp h
        simp [hp, h]
      rw [← this]
      exact List.mem_cons_self p d
    · simp [Dict.lookup, hp] at h
      exact List.mem_cons_of_mem _ (ih h)

theorem Dict.lookup_erase_self {α : Type} (d : Dict α) (k : String) :
    Dict.lookup (Dict.erase d k) k = none := by
  induction d with
  | nil => simp [Dict.erase, Dict.lookup]
  | cons p d ih =>
    by_cases hp : p.1 = k
    · simpa [Dict.erase, List.filter_cons, hp] using ih
    · simpa [Dict.erase, List.filter_cons, Dict.lookup, hp] using ih

theorem Dict.lookup_erase_ne {α : Type} (d : Dict α) (k k' : String)
    (h : k' ≠ k) :
    Dict.lookup (Dict.erase d k) k' = Dict.lookup d k' := by
  induction d with
  | nil => simp [Dict.erase]
  | cons p d ih =>
    by_cases hp : p.1 = k
    · have hp' : p.1 ≠ k' := by rw [hp]; exact Ne.symm h
      simpa [Dict.erase, List.filter_cons, Dict.lookup, hp, hp', h, Ne.symm h] using ih
    · by_cases hp' : p.1 = k'
      · simp [Dict.erase, List.filter_cons, Dict.lookup, hp, hp', h, Ne.symm h]
      · simpa [Dict.erase, List.filter_cons, Dict.lookup, hp, hp'] using ih

theorem Dict.lookup_erase_none {α : Type} (d : Dict α) (k k' : String)
    (h : Dict.lookup d k' = none) :
    Dict.lookup (Dict.erase d k) k' = none := by
  by_cases hk : k' = k
  · simpa [hk] using Dict.lookup_erase_self d k
  · rw [Dict.lookup_erase_ne d k k' hk]; exact h

/-! ### Lemmas about the list-change delta -/

theorem pyListContains_iff (s : String) (l : List Device) :
    pyListContains s l = true ↔ ∃ d ∈ l, d.dev_name = s := by
  simp [pyListContains, pyEq, strEqDevice, deviceEqPy, List.any_eq_true]

theorem addedFold_cons (c : Device) (cs : List Device)
    (init : Dict Device × List Device) :
    addedFold (c :: cs) init =
      addedFold cs
        (if (Dict.lookup init.1 c.dev_name).isSome then init
         else (Dict.insert init.1 c.dev_name c, init.2 ++ [c])) := by
  rfl

theorem addedFold_spec (changed : List Device) (ds : Dict Device)
    (acc : List Device) (hnd : (changed.map Device.dev_name).Nodup) :
    addedFold changed (ds, acc) =
      (ds ++ (changed.filter
          (fun d => (Dict.lookup ds d.dev_name).isNone)).map
            (fun d => (d.dev_name, d)),
       acc ++ changed.filter (fun d => (Dict.lookup ds d.dev_name).isNone)) := by
  induction changed generalizing ds acc with
  | nil => simp [addedFold]
  | cons c cs ih =>
    simp only [List.map_cons, List.nodup_cons] at hnd
    have hc : c.dev_name ∉ cs.map Device.dev_name := hnd.1
    rw [addedFold_cons]
    by_cases hl : (Dict.lookup ds c.dev_name).isSome
    · have hl' : ¬ (Dict.lookup ds c.dev_name).isNone := by
        rcases Option.isSome_iff_exists.mp hl with ⟨v, hv⟩
        simp [hv]
      rw [if_pos hl, ih ds acc hnd.2]
      simp [List.filter_cons, hl']
    · have hnone : Dict.lookup ds c.dev_name = none := by
        cases hh : Dict.lookup ds c.dev_name with
        | none => rfl
        | some v => rw [hh] at hl; simp at hl
      have hisnone : (Dict.lookup ds c.dev_name).isNone := by simp [hnone]
      rw [if_neg hl, Dict.insert_of_lookup_none ds c.dev_name c hnone]
      rw [ih (ds ++ [(c.dev_name, c)]) (acc ++ [c]) hnd.2]
      have hfil : cs.filter
            (fun d => (Dict.lookup (ds ++ [(c.dev_name, c)]) d.dev_name).isNone) =
          cs.filter (fun d => (Dict.lookup ds d.dev_name).isNone) := by
        apply List.filter_congr
        intro d hd
        have hne : c.dev_name ≠ d.dev_name := by
          intro he
          exact hc (by rw [he]; exact List.mem_map.mpr ⟨d, hd, rfl⟩)
        rw [Dict.lookup_append]
        cases hds : Dict.lookup ds d.dev_name with
        | some v => simp
        | none => simp [Dict.lookup, hne]
      rw [hfil]
      simp [List.filter_cons, hisnone]

theorem eraseFold_lookup_none (names : List String) (d : Dict Device)
    (k : String) (h : Dict.lookup d k = none) :
    Dict.lookup (names.foldl (fun ds n => Dict.erase ds n) d) k = none := by
  induction names generalizing d with
  | nil => simpa using h
  | cons n ns ih =>
    simp only [List.foldl_cons]
    exact ih (Dict.erase d n) (Dict.lookup_erase_none d n k h)

theorem eraseFold_lookup_mem (names : List String) (d : Dict Device)
    (k : String) (h : k ∈ names) :
    Dict.lookup (names.foldl (fun ds n => Dict.erase ds n) d) k = none := by
  induction names generalizing d with
  | nil => simp at h
  | cons n ns ih =>
    simp only [List.foldl_cons]
    rcases List.mem_cons.mp h with h | h
    · exact eraseFold_lookup_none ns (Dict.erase d n) k
        (by rw [h]; exact Dict.lookup_erase_self d n)
    · exact ih (Dict.erase d n) h

theorem eraseFold_lookup_not_mem (names : List String) (d : Dict Device)
    (k : String) (h : k ∉ names) :
    Dict.lookup (names.foldl (fun ds n => Dict.erase ds n) d) k =
      Dict.lookup d k := by
  induction names generalizing d with
  | nil => simp
  | cons n ns ih =>
    simp only [List.foldl_cons]
    have hk : k ≠ n := fun he => h (by rw [he]; exact List.mem_cons_self n ns)
    rw [ih (Dict.erase d n) (fun hh => h (List.mem_cons_of_mem n hh))]
    exact Dict.lookup_erase_ne d n k hk

theorem notify_devices_added_devices (v : String) (l : List Device)
    (st : TrayState) : (notify_devices_added v l st).1.devices = st.devices := rfl

theorem notify_devices_removed_devices (v : String) (l : List Device)
    (st : TrayState) : (notify_devices_removed v l st).1.devices = st.devices := rfl

/-- The device list `device_list_update` computes from its enumeration
oracle: the listed devices, or `[]` when the enumeration raised. -/
def enumDevices (enum : Except Unit (List Device)) : List Device :=
  match enum with
  | .ok l => l
  | .error _ => []

theorem device_list_update_devices (vmName : String)
    (enum : Except Unit (List Device)) (st : TrayState) :
    (device_list_update vmName enum st).1.devices =
      (device_list_delta vmName (enumDevices enum) st.devices).1 := by
  cases enum
  all_goals
    simp only [device_list_update, enumDevices]
    split
    · rw [notify_devices_removed_devices]
      split
      · rw [notify_devices_added_devices]
      · rfl
    · split
      · rw [notify_devices_added_devices]
      · rfl

theorem delta_fst_keys_nodup (changed : List Device) (ds : Dict Device)
    (hkeys : (ds.map Prod.fst).Nodup)
    (hnd : (changed.map Device.dev_name).Nodup) :
    (((ds ++ (changed.filter
        (fun d => (Dict.lookup ds d.dev_name).isNone)).map
          (fun d => (d.dev_name, d))).map Prod.fst)).Nodup := by
  rw [List.map_append]
  rw [List.nodup_append]
  refine ⟨hkeys, ?_, ?_⟩
  · have hsub : ((changed.filter
        (fun d => (Dict.lookup ds d.dev_name).isNone)).map
          (fun d => (d.dev_name, d))).map Prod.fst =
        (changed.filter (fun d => (Dict.lookup ds d.dev_name).isNone)).map
          Device.dev_name := by
      rw [List.map_map]; rfl
    rw [hsub]
    exact List.Nodup.sublist
      (List.Sublist.map Device.dev_name (List.filter_sublist changed)) hnd
  · intro a ha hb
    rcases List.mem_map.mp hb with ⟨q, hq, hq2⟩
    rcases List.mem_map.mp hq with ⟨d, hd, hd2⟩
    rcases List.mem_filter.mp hd with ⟨_, hnone⟩
    have : Dict.lookup ds d.dev_name = none := by
      cases hh : Dict.lookup ds d.dev_name with
      | none => rfl
      | some v => rw [hh] at hnone; simp at hnone
    have hall := (Dict.lookup_eq_none_iff ds d.dev_name).mp this
    rcases List.mem_map.mp ha with ⟨p, hp, hp2⟩
    have : p.1 ≠ d.dev_name := hall p hp
    apply this
    rw [hp2, ← hq2, ← hd2]

theorem device_list_delta_spec (vmName : String) (changed : List Device)
    (ds : Dict Device) (hkeys : (ds.map Prod.fst).Nodup)
    (hnd : (changed.map Device.dev_name).Nodup) :
    (∀ dev ∈ changed, Dict.lookup ds dev.dev_name = none →
       Dict.lookup (device_list_delta vmName changed ds).1 dev.dev_name = some dev ∧
       dev ∈ (device_list_delta vmName changed ds).2.1) ∧
    (∀ d ∈ (device_list_delta vmName changed ds).2.1,
       d ∈ changed ∧ Dict.lookup ds d.dev_name = none) ∧
    (∀ p ∈ ds, p.2.backend_domain = vmName → (∀ c ∈ changed, c.dev_name ≠ p.1) →
       Dict.lookup (device_list_delta vmName changed ds).1 p.1 = none ∧
       p.2 ∈ (device_list_delta vmName changed ds).2.2) ∧
    (∀ x ∈ (device_list_delta vmName changed ds).2.2,
       ∃ p ∈ ds, p.2 = x ∧ p.2.backend_domain = vmName ∧
         ∀ c ∈ changed, c.dev_name ≠ p.1) := by
  have hAF := addedFold_spec changed ds [] hnd
  rw [List.nil_append] at hAF
  set F := changed.filter (fun d => (Dict.lookup ds d.dev_name).isNone) with hF
  set D1 := ds ++ F.map (fun d => (d.dev_name, d)) with hD1
  set names := (D1.filter (fun p =>
    p.2.backend_domain == vmName && !(pyListContains p.1 changed))).map
      (fun p => p.1) with hnames
  have h1 : (device_list_delta vmName changed ds).2.1 = F := by
    simp only [device_list_delta]
    rw [hAF]
  have h2 : (device_list_delta vmName changed ds).2.2 =
      names.filterMap (fun n => Dict.lookup D1 n) := by
    simp only [device_list_delta]
    rw [hAF]
  have h3 : (device_list_delta vmName changed ds).1 =
      names.foldl (fun x n => Dict.erase x n) D1 := by
    simp only [device_list_delta]
    rw [hAF]
  have hD1keys : (D1.map Prod.fst).Nodup :=
    delta_fst_keys_nodup changed ds hkeys hnd
  have hFkeys : ((F.map (fun d => (d.dev_name, d))).map Prod.fst).Nodup := by
    rw [List.map_map]
    exact List.Nodup.sublist
      (List.Sublist.map _ (List.filter_sublist changed)) hnd
  refine ⟨?_, ?_, ?_, ?_⟩
  · intro dev hdev hlook
    have hdevF : dev ∈ F := List.mem_filter.mpr ⟨hdev, by simp [hlook]⟩
    have hnotin : dev.dev_name ∉ names := by
      intro hin
      rcases List.mem_map.mp hin with ⟨p, hp, hp1⟩
      rcases List.mem_filter.mp hp with ⟨_, hcond⟩
      rw [Bool.and_eq_true] at hcond
      have hpy : pyListContains p.1 changed = false := by
        have := hcond.2
        simpa using this
      have hpy2 : pyListContains p.1 changed = true :=
        (pyListContains_iff _ _).mpr ⟨dev, hdev, hp1.symm⟩
      rw [hpy] at hpy2
      exact Bool.false_ne_true hpy2
    have hlookD1 : Dict.lookup D1 dev.dev_name = some dev := by
      rw [hD1, Dict.lookup_append, hlook]
      exact Dict.lookup_of_mem_nodup _ _ _ hFkeys
        (List.mem_map.mpr ⟨dev, hdevF, rfl⟩)
    refine ⟨?_, ?_⟩
    · rw [h3, eraseFold_lookup_not_mem names D1 dev.dev_name hnotin]
      exact hlookD1
    · rw [h1]
      exact hdevF
  · intro d hd
    rw [h1] at hd
    rcases List.mem_filter.mp hd with ⟨hmem, hnone⟩
    refine ⟨hmem, ?_⟩
    cases hh : Dict.lookup ds d.dev_name with
    | none => rfl
    | some v => rw [hh] at hnone; simp at hnone
  · intro p hp hback hnotchanged
    have hpy : pyListContains p.1 changed = false := by
      cases hh : pyListContains p.1 changed with
      | false => rfl
      | true =>
        rcases (pyListContains_iff _ _).mp hh with ⟨c, hc, he⟩
        exact absurd he (hnotchanged c hc)
    have hcond : (p.2.backend_domain == vmName &&
        !(pyListContains p.1 changed)) = true := by
      rw [Bool.and_eq_true]
      exact ⟨by simp [hback], by simp [hpy]⟩
    have hpD1 : p ∈ D1 := List.mem_append_left _ hp
    have hpfil : p ∈ D1.filter (fun p =>
        p.2.backend_domain == vmName && !(pyListContains p.1 changed)) :=
      List.mem_filter.mpr ⟨hpD1, hcond⟩
    have hmemnames : p.1 ∈ names := List.mem_map.mpr ⟨p, hpfil, rfl⟩
    refine ⟨?_, ?_⟩
    · rw [h3]
      exact eraseFold_lookup_mem names D1 p.1 hmemnames
    · rw [h2]
      refine List.mem_filterMap.mpr ⟨p.1, hmemnames, ?_⟩
      exact Dict.lookup_of_mem_nodup D1 p.1 p.2 hD1keys hpD1
  · intro x hx
    rw [h2] at hx
    rcases List.mem_filterMap.mp hx with ⟨n, hn, hlk⟩
    rcases List.mem_map.mp hn with ⟨q, hqfil, hq1⟩
    rcases List.mem_filter.mp hqfil with ⟨hqD1, hqcond⟩
    rw [Bool.and_eq_true] at hqcond
    have hqpy : pyListContains q.1 changed = false := by
      have := hqcond.2
      simpa using this
    have hqds : q ∈ ds := by
      rcases List.mem_append.mp hqD1 with h | h
      · exact h
      · exfalso
        rcases List.mem_map.mp h with ⟨c, hcF, hc2⟩
        have hcch : c ∈ changed := (List.mem_filter.mp hcF).1
        have : pyListContains q.1 changed = true :=
          (pyListContains_iff _ _).mpr ⟨c, hcch, by rw [← hc2]⟩
        rw [hqpy] at this
        exact Bool.false_ne_true this
    have hlkq : Dict.lookup D1 q.1 = some q.2 :=
      Dict.lookup_of_mem_nodup D1 q.1 q.2 hD1keys hqD1
    have hxq : q.2 = x := by
      rw [hq1] at hlkq
      rw [hlkq] at hlk
      exact Option.some.inj hlk
    refine ⟨q, hqds, hxq, by simpa using hqcond.1, ?_⟩
    intro c hc he
    have : pyListContains q.1 changed = true :=
      (pyListContains_iff _ _).mpr ⟨c, hc, he⟩
    rw [hqpy] at this
    exact Bool.false_ne_true this


/-! ### Concrete fixtures used by the witnesses -/

/-- A sample USB device backed by `sys-usb`. -/
def devUsb : Device :=
  { dev_name := "sys-usb:dev1", ident := "dev1", description := "My USB stick"
    devclass := "usb", attachments := [], backend_domain := "sys-usb"
    vm_icon := "appvm-red" }

/-- A second sample device backed by `sys-usb`. -/
def devCam : Device :=
  { dev_name := "sys-usb:dev2", ident := "dev2", description := "A camera"
    devclass := "usb", attachments := [], backend_domain := "sys-usb"
    vm_icon := "appvm-red" }

/-- A tray state tracking `devUsb` and the running VM `sys-usb`. -/
def trayEx : TrayState :=
  { devices := [("sys-usb:dev1", devUsb)]
    vms := [{ vm_name := "sys-usb", icon := "appvm-red" }]
    devs_added := [], devs_removed := [] }

/-- C1: a `device-list-change` event for VM `v` re-enumerates `v`'s devices
(an administration error counts as an empty enumeration, as the last
conjunct witnesses); every enumerated device whose key was absent is
inserted into the registry and is passed to the notifier in the added list
(and only such devices are), and every registry entry backed by `v` whose
key is absent from the enumeration is deleted from the registry and passed
to the notifier in the removed list (and only such entries are). -/
theorem device_list_update_correct (st : TrayState) (vmName : String)
    (enum : Except Unit (List Device))
    (hkeys : (st.devices.map Prod.fst).Nodup)
    (hnd : ((enumDevices enum).map Device.dev_name).Nodup) :
    (device_list_update vmName enum st).1.devices =
      (device_list_delta vmName (enumDevices enum) st.devices).1 ∧
    (∀ dev ∈ enumDevices enum,
       Dict.lookup st.devices dev.dev_name = none →
       Dict.lookup (device_list_delta vmName (enumDevices enum) st.devices).1
           dev.dev_name = some dev ∧
       dev ∈ (device_list_delta vmName (enumDevices enum) st.devices).2.1) ∧
    (∀ d ∈ (device_list_delta vmName (enumDevices enum) st.devices).2.1,
       d ∈ enumDevices enum ∧ Dict.lookup st.devices d.dev_name = none) ∧
    (∀ p ∈ st.devices, p.2.backend_domain = vmName →
       (∀ c ∈ enumDevices enum, c.dev_name ≠ p.1) →
       Dict.lookup (device_list_delta vmName (enumDevices enum) st.devices).1
           p.1 = none ∧
       p.2 ∈ (device_list_delta vmName (enumDevices enum) st.devices).2.2) ∧
    (∀ x ∈ (device_list_delta vmName (enumDevices enum) st.devices).2.2,
       ∃ p ∈ st.devices, p.2 = x ∧ p.2.backend_domain = vmName ∧
         ∀ c ∈ enumDevices enum, c.dev_name ≠ p.1) ∧
    device_list_update vmName (.error ()) st =
      device_list_update vmName (.ok []) st := by
  obtain ⟨pa, pb, pc, pd⟩ := device_list_delta_spec vmName (enumDevices enum)
    st.devices hkeys hnd
  exact ⟨device_list_update_devices vmName enum st, pa, pb, pc, pd, rfl⟩

/-- Witness for C1: the theorem applied to a state that knows one device of
`sys-usb` and an enumeration that no longer lists it. -/
theorem device_list_update_correct_witness :
    (trayEx.devices.map Prod.fst).Nodup ∧
    ((device_list_update "sys-usb" (.ok []) trayEx).1.devices =
      (device_list_delta "sys-usb" (enumDevices (.ok [])) trayEx.devices).1 ∧
    (∀ dev ∈ enumDevices (.ok []),
       Dict.lookup trayEx.devices dev.dev_name = none →
       Dict.lookup (device_list_delta "sys-usb" (enumDevices (.ok []))
         trayEx.devices).1 dev.dev_name = some dev ∧
       dev ∈ (device_list_delta "sys-usb" (enumDevices (.ok []))
         trayEx.devices).2.1) ∧
    (∀ d ∈ (device_list_delta "sys-usb" (enumDevices (.ok []))
        trayEx.devices).2.1,
       d ∈ enumDevices (.ok []) ∧
       Dict.lookup trayEx.devices d.dev_name = none) ∧
    (∀ p ∈ trayEx.devices, p.2.backend_domain = "sys-usb" →
       (∀ c ∈ enumDevices (.ok []), c.dev_name ≠ p.1) →
       Dict.lookup (device_list_delta "sys-usb" (enumDevices (.ok []))
         trayEx.devices).1 p.1 = none ∧
       p.2 ∈ (device_list_delta "sys-usb" (enumDevices (.ok []))
         trayEx.devices).2.2) ∧
    (∀ x ∈ (device_list_delta "sys-usb" (enumDevices (.ok []))
        trayEx.devices).2.2,
       ∃ p ∈ trayEx.devices, p.2 = x ∧ p.2.backend_domain = "sys-usb" ∧
         ∀ c ∈ enumDevices (.ok []), c.dev_name ≠ p.1) ∧
    device_list_update "sys-usb" (.error ()) trayEx =
      device_list_update "sys-usb" (.ok []) trayEx) :=
  ⟨by decide,
   device_list_update_correct trayEx "sys-usb" (.ok []) (by decide) (by decide)⟩

/-! ### C4: the string-versus-record membership test -/

/-- C4: the `name not in changed_devices` test of the list-change handler,
evaluated under Python's reflected-equality dispatch (`str.__eq__` returns
`NotImplemented`, so `Device.__eq__` decides), is extensionally the
canonical comparison by device key: it is false exactly when no record in
the list has `dev_name` equal to the string, and as a function it equals
the canonical by-key membership test. -/
theorem pyListContains_key_equiv (name : String) (changed : List Device) :
    (pyListContains name changed = false ↔
      ∀ d ∈ changed, d.dev_name ≠ name) ∧
    pyListContains name changed = keyListContains name changed := by
  constructor
  · constructor
    · intro h d hd he
      have : pyListContains name changed = true :=
        (pyListContains_iff _ _).mpr ⟨d, hd, he⟩
      rw [h] at this
      exact Bool.false_ne_true this
    · intro h
      cases hh : pyListContains name changed with
      | false => rfl
      | true =>
        rcases (pyListContains_iff _ _).mp hh with ⟨d, hd, he⟩
        exact absurd he (h d hd)
  · rfl

/-- Witness for C4: evaluated at a concrete key and device list. -/
theorem pyListContains_key_equiv_witness :
    (pyListContains "sys-usb:dev2" [devUsb] = false ↔
      ∀ d ∈ [devUsb], d.dev_name ≠ "sys-usb:dev2") ∧
    pyListContains "sys-usb:dev2" [devUsb] =
      keyListContains "sys-usb:dev2" [devUsb] :=
  pyListContains_key_equiv "sys-usb:dev2" [devUsb]

/-! ### C9: detach of an unknown device is a complete no-op -/

/-- C9: a `device-detach` event whose VM reports running but whose device
key is not in the registry returns normally and leaves the whole tray
state — registry, VM set and both notification buffers — unchanged. -/
theorem device_detached_unknown_noop (st : TrayState) (vmName devName : String)
    (h : Dict.lookup st.devices devName = none) :
    device_detached vmName (.ok true) devName st = st := by
  simp [device_detached, h]

/-- Witness for C9: a detach for an unknown key on the sample state. -/
theorem device_detached_unknown_noop_witness :
    Dict.lookup trayEx.devices "work:dev9" = none ∧
    device_detached "work" (.ok true) "work:dev9" trayEx = trayEx :=
  ⟨by decide, device_detached_unknown_noop trayEx "work" "work:dev9" (by decide)⟩

/-! ### C6: shutdown handler idempotence -/

theorem filter_self_idem {α : Type} (p : α → Bool) (l : List α) :
    (l.filter p).filter p = l.filter p := by
  induction l with
  | nil => rfl
  | cons x xs ih =>
    by_cases hx : p x
    · simp [List.filter_cons, hx, ih]
    · simp [List.filter_cons, hx, ih]

/-- C6: the `domain-shutdown` handler is idempotent on the tray state —
running it twice for the same VM equals running it once (it is a total
function, so no error is raised) — and afterwards no device's attachment
set contains that VM's name. -/
theorem vm_shutdown_idempotent (st : TrayState) (vmName : String) :
    vm_shutdown vmName (vm_shutdown vmName st) = vm_shutdown vmName st ∧
    ∀ p ∈ (vm_shutdown vmName st).devices, vmName ∉ p.2.attachments := by
  constructor
  · simp only [vm_shutdown, setDiscard, TrayState.mk.injEq]
    refine ⟨?_, ?_, trivial, trivial⟩
    · rw [List.map_map]
      apply List.map_congr_left
      intro p _
      simp [filter_self_idem]
    · exact filter_self_idem _ _
  · intro p hp
    simp only [vm_shutdown] at hp
    rcases List.mem_map.mp hp with ⟨q, _, rfl⟩
    intro hmem
    simp [setDiscard] at hmem

/-- Witness for C6: the theorem applied to the sample state with an
attachment present. -/
theorem vm_shutdown_idempotent_witness :
    (vm_shutdown "work" (vm_shutdown "work" trayEx) =
      vm_shutdown "work" trayEx) ∧
    ∀ p ∈ (vm_shutdown "work" trayEx).devices, "work" ∉ p.2.attachments :=
  vm_shutdown_idempotent trayEx "work"

/-! ### C8: label-change fallback icons -/

/-- C8 (code bug evidence): on a `property-set:label` event for `sys-usb`
whose label read raises an access error, the handler propagates no error,
but it sets the tracked VM's icon to the literal `'appvm-block'` — not the
`'appvm-black'` sentinel used at `Device`/`VM` construction and for the
device's `vm_icon` in the very same handler. -/
theorem on_label_changed_fallback_mismatch :
    (on_label_changed (some { name := .ok "sys-usb", labelIcon := .error () })
      trayEx).vms = [{ vm_name := "sys-usb", icon := "appvm-block" }] ∧
    (on_label_changed (some { name := .ok "sys-usb", labelIcon := .error () })
      trayEx).devices =
      [("sys-usb:dev1", { devUsb with vm_icon := "appvm-black" })] ∧
    "appvm-block" ≠ "appvm-black" := by
  refine ⟨rfl, rfl, ?_⟩
  decide

/-! ### C7: snapshot loader tolerates unreadable listings -/

/-- The same domain snapshot with one device-class listing replaced by an
empty one (the reference point for error tolerance: an unreadable listing
must act like an empty listing). -/
def blankDevs (d0 : DomSnapshot) (c0 : String) : DomSnapshot where
  name := d0.name
  devs := fun c => if c = c0 then Except.ok [] else d0.devs c
  attached := d0.attached

/-- C7: if one domain's device enumeration raises an access error for some
device class, the snapshot loader completes (it is a total function) and
computes exactly the registry it would compute were that listing empty:
the failing pair contributes zero devices, and every other readable pair's
devices and attachments are recorded as usual. -/
theorem initialize_dev_data_tolerant (pre post : List DomSnapshot)
    (d0 : DomSnapshot) (c0 : String) (h : d0.devs c0 = .error ()) :
    initialize_dev_data (pre ++ d0 :: post) =
      initialize_dev_data (pre ++ blankDevs d0 c0 :: post) := by
  have hstep : ∀ (a : Dict Device) (dc : String),
      (match d0.devs dc with
       | .error _ => a
       | .ok l => l.foldl (fun a2 (d : Device) =>
           Dict.insert a2 d.dev_name d) a) =
      (match (blankDevs d0 c0).devs dc with
       | .error _ => a
       | .ok l => l.foldl (fun a2 (d : Device) =>
           Dict.insert a2 d.dev_name d) a) := by
    intro a dc
    by_cases hdc : dc = c0
    · simp only [blankDevs, if_pos hdc]
      rw [hdc, h]
      rfl
    · simp only [blankDevs, if_neg hdc]
  have hdom : ∀ acc : Dict Device,
      snapshotDevsDom acc d0 = snapshotDevsDom acc (blankDevs d0 c0) := by
    have hgen : ∀ (dcs : List String) (acc : Dict Device),
        dcs.foldl (fun a dc =>
          match d0.devs dc with
          | .error _ => a
          | .ok l => l.foldl (fun a2 (d : Device) =>
              Dict.insert a2 d.dev_name d) a) acc =
        dcs.foldl (fun a dc =>
          match (blankDevs d0 c0).devs dc with
          | .error _ => a
          | .ok l => l.foldl (fun a2 (d : Device) =>
              Dict.insert a2 d.dev_name d) a)
            acc := by
      intro dcs
      induction dcs with
      | nil => intro acc; rfl
      | cons dc rest ih =>
        intro acc
        simp only [List.foldl_cons]
        rw [← hstep acc dc]
        exact ih _
    intro acc
    simp only [snapshotDevsDom]
    exact hgen DEV_TYPES acc
  have hatt : ∀ acc : Dict Device,
      snapshotAttachedDom acc (blankDevs d0 c0) =
        snapshotAttachedDom acc d0 := fun _ => rfl
  simp only [initialize_dev_data]
  rw [List.foldl_append, List.foldl_append, List.foldl_cons, List.foldl_cons]
  rw [List.foldl_append, List.foldl_append, List.foldl_cons, List.foldl_cons]
  rw [← hdom]
  rw [hatt]

/-- A snapshot domain whose `usb` listing raises an access error. -/
def domFailingUsb : DomSnapshot where
  name := "sys-usb"
  devs := fun c => if c = "usb" then Except.error () else Except.ok []
  attached := fun _ => Except.ok []

/-- A readable snapshot domain contributing one device. -/
def domDom0 : DomSnapshot where
  name := "dom0"
  devs := fun _ => Except.ok [devCam]
  attached := fun _ => Except.ok []

/-- Witness for C7: a two-domain snapshot where `sys-usb`'s `usb` listing
raises; dom0's devices are still recorded and the failing pair contributes
nothing. -/
theorem initialize_dev_data_tolerant_witness :
    domFailingUsb.devs "usb" = .error () ∧
    initialize_dev_data ([domDom0] ++ domFailingUsb :: []) =
      initialize_dev_data ([domDom0] ++ blankDevs domFailingUsb "usb" :: []) :=
  ⟨rfl, initialize_dev_data_tolerant [domDom0] [] domFailingUsb "usb" rfl⟩

/-! ### C2: attach/detach event history -/

theorem Dict.lookup_modify_self {α : Type} (d : Dict α) (k : String)
    (f : α → α) :
    Dict.lookup (Dict.modify d k f) k = (Dict.lookup d k).map f := by
  induction d with
  | nil => simp [Dict.modify, Dict.lookup]
  | cons p d ih =>
    simp only [Dict.modify, beq_iff_eq] at ih ⊢
    rw [List.map_cons]
    by_cases hp : p.1 = k
    · simp [Dict.lookup, hp]
    · simp [Dict.lookup, hp, ih]

theorem Dict.lookup_modify_ne {α : Type} (d : Dict α) (k k' : String)
    (f : α → α) (h : k' ≠ k) :
    Dict.lookup (Dict.modify d k f) k' = Dict.lookup d k' := by
  induction d with
  | nil => simp [Dict.modify]
  | cons p d ih =>
    simp only [Dict.modify, beq_iff_eq] at ih ⊢
    rw [List.map_cons]
    by_cases hp : p.1 = k
    · have hp' : p.1 ≠ k' := by rw [hp]; exact Ne.symm h
      simp [Dict.lookup, hp, hp', Ne.symm h, ih]
    · by_cases hp' : p.1 = k'
      · simp [Dict.lookup, hp, hp', h]
      · simp [Dict.lookup, hp, hp', ih]

theorem mem_setAdd (l : List String) (s x : String) :
    x ∈ setAdd l s ↔ x ∈ l ∨ x = s := by
  by_cases h : s ∈ l
  · simp only [setAdd, if_pos h]
    constructor
    · exact Or.inl
    · rintro (hx | rfl)
      · exact hx
      · exact h
  · simp [setAdd, if_neg h]

theorem mem_setDiscard (l : List String) (s x : String) :
    x ∈ setDiscard l s ↔ x ∈ l ∧ x ≠ s := by
  simp [setDiscard]

theorem device_attached_attachmentsOf (st : TrayState) (vmName : String)
    (dev : Device) (key : String)
    (hcls : DEV_TYPES.contains dev.devclass = true) :
    attachmentsOf (device_attached vmName (.ok true) dev st).devices key =
      if dev.dev_name = key then setAdd (attachmentsOf st.devices key) vmName
      else attachmentsOf st.devices key := by
  simp only [device_attached, hcls, Bool.not_true, Bool.false_or,
    Bool.not_false, Bool.false_and]
  rw [if_neg (by simp [hcls])]
  by_cases hk : dev.dev_name = key
  · rw [if_pos hk]
    by_cases hl : (Dict.lookup st.devices dev.dev_name).isSome
    · rw [if_pos hl]
      rcases Option.isSome_iff_exists.mp hl with ⟨v, hv⟩
      simp only [attachmentsOf]
      rw [← hk, Dict.lookup_modify_self, hv]
      simp
    · rw [if_neg hl]
      have hnone : Dict.lookup st.devices dev.dev_name = none := by
        cases hh : Dict.lookup st.devices dev.dev_name with
        | none => rfl
        | some v => rw [hh] at hl; simp at hl
      simp only [attachmentsOf]
      rw [← hk, Dict.lookup_modify_self, Dict.lookup_insert_self, hnone]
      simp
  · rw [if_neg hk]
    by_cases hl : (Dict.lookup st.devices dev.dev_name).isSome
    · rw [if_pos hl]
      simp only [attachmentsOf]
      rw [Dict.lookup_modify_ne _ _ _ _ (fun he => hk he.symm)]
    · rw [if_neg hl]
      simp only [attachmentsOf]
      rw [Dict.lookup_modify_ne _ _ _ _ (fun he => hk he.symm),
        Dict.lookup_insert_ne _ _ _ _ (fun he => hk he.symm)]

theorem device_detached_attachmentsOf (st : TrayState) (vmName : String)
    (devName : String) (key : String) :
    attachmentsOf (device_detached vmName (.ok true) devName st).devices key =
      if devName = key then setDiscard (attachmentsOf st.devices key) vmName
      else attachmentsOf st.devices key := by
  simp only [device_detached, Bool.not_true]
  rw [if_neg (by simp)]
  by_cases hl : (Dict.lookup st.devices devName).isSome
  · rw [if_pos hl]
    by_cases hk : devName = key
    · rw [if_pos hk]
      rcases Option.isSome_iff_exists.mp hl with ⟨v, hv⟩
      simp only [attachmentsOf]
      rw [← hk, Dict.lookup_modify_self, hv]
      simp
    · rw [if_neg hk]
      simp only [attachmentsOf]
      rw [Dict.lookup_modify_ne _ _ _ _ (fun he => hk he.symm)]
  · rw [if_neg hl]
    by_cases hk : devName = key
    · rw [if_pos hk]
      have hnone : Dict.lookup st.devices key = none := by
        rw [← hk]
        cases hh : Dict.lookup st.devices devName with
        | none => rfl
        | some v => rw [hh] at hl; simp at hl
      simp [attachmentsOf, hnone, setDiscard]
    · rw [if_neg hk]

theorem lastAction_acc (key vmName : String) (evs : List DevEvent)
    (acc : Option Bool) :
    evs.foldl (lastStep key vmName) acc =
      match lastAction evs key vmName with
      | some b => some b
      | none => acc := by
  induction evs generalizing acc with
  | nil => simp [lastAction]
  | cons e rest ih =>
    have hunf : lastAction (e :: rest) key vmName =
        rest.foldl (lastStep key vmName) (lastStep key vmName none e) := rfl
    rw [List.foldl_cons, ih, hunf, ih]
    cases hla : lastAction rest key vmName with
    | some b => rfl
    | none =>
      cases e with
      | attach v r d =>
        by_cases hc : (v == vmName && d.dev_name == key) = true
        · simp [lastStep, hc]
        · simp [lastStep, hc]
      | detach v r n =>
        by_cases hc : (v == vmName && n == key) = true
        · simp [lastStep, hc]
        · simp [lastStep, hc]

theorem applyDevEvents_mem_attachments (evs : List DevEvent) (st : TrayState)
    (key vmName : String) (hok : eventsOk evs = true) :
    (vmName ∈ attachmentsOf (applyDevEvents st evs).devices key ↔
      match lastAction evs key vmName with
      | some b => b = true
      | none => vmName ∈ attachmentsOf st.devices key) := by
  induction evs generalizing st with
  | nil => simp [applyDevEvents, lastAction]
  | cons e rest ih =>
    simp only [eventsOk, List.all_cons, Bool.and_eq_true] at hok
    rw [show eventsOk rest = rest.all _ from rfl] at ih
    have hstep : applyDevEvents st (e :: rest) =
        applyDevEvents (applyDevEvent st e) rest := rfl
    have hla : lastAction (e :: rest) key vmName =
        match lastAction rest key vmName with
        | some b => some b
        | none => lastStep key vmName none e := by
      have hunf : lastAction (e :: rest) key vmName =
          rest.foldl (lastStep key vmName) (lastStep key vmName none e) := rfl
      rw [hunf, lastAction_acc]
    rw [hstep, hla, ih (applyDevEvent st e) hok.2]
    cases hrest : lastAction rest key vmName with
    | some b => rfl
    | none =>
      cases e with
      | attach v r d =>
        have hr : r = .ok true := by
          have := hok.1
          simp at this
          exact this.1
        have hcls : DEV_TYPES.contains d.devclass = true := by
          have := hok.1
          simp [DEV_TYPES] at this
          simp [DEV_TYPES, this.2]
        subst hr
        have heq := device_attached_attachmentsOf st v d key hcls
        show vmName ∈ attachmentsOf (device_attached v (.ok true) d st).devices
            key ↔ _
        rw [heq]
        by_cases hc : (v == vmName && d.dev_name == key) = true
        · rw [Bool.and_eq_true, beq_iff_eq, beq_iff_eq] at hc
          simp [lastStep, hc.1, hc.2, mem_setAdd]
        · rw [Bool.and_eq_true] at hc
          push_neg at hc
          by_cases hd : d.dev_name = key
          · have hv : ¬ v = vmName := by
              intro hv
              exact hc (by simp [hv]) (by simp [hd])
            rw [if_pos hd]
            have : lastStep key vmName none (DevEvent.attach v (.ok true) d) =
                none := by
              simp [lastStep, fun h => hv h]
            rw [this]
            rw [mem_setAdd]
            constructor
            · rintro (hm | rfl)
              · exact hm
              · exact absurd rfl hv
            · exact Or.inl
          · rw [if_neg hd]
            have : lastStep key vmName none (DevEvent.attach v (.ok true) d) =
                none := by
              simp [lastStep, fun h => hd h]
            rw [this]
      | detach v r n =>
        have hr : r = .ok true := by
          have := hok.1
          simpa using this
        subst hr
        have heq := device_detached_attachmentsOf st v n key
        show vmName ∈ attachmentsOf (device_detached v (.ok true) n st).devices
            key ↔ _
        rw [heq]
        by_cases hc : (v == vmName && n == key) = true
        · rw [Bool.and_eq_true, beq_iff_eq, beq_iff_eq] at hc
          simp [lastStep, hc.1, hc.2, mem_setDiscard]
        · rw [Bool.and_eq_true] at hc
          push_neg at hc
          by_cases hn : n = key
          · have hv : ¬ v = vmName := by
              intro hv
              exact hc (by simp [hv]) (by simp [hn])
            rw [if_pos hn]
            have : lastStep key vmName none (DevEvent.detach v (.ok true) n) =
                none := by
              simp [lastStep, fun h => hv h]
            rw [this]
            rw [mem_setDiscard]
            constructor
            · exact fun hm => hm.1
            · intro hm
              exact ⟨hm, fun he => hv he.symm⟩
          · rw [if_neg hn]
            have : lastStep key vmName none (DevEvent.detach v (.ok true) n) =
                none := by
              simp [lastStep, fun h => hn h]
            rw [this]

/-- C2: starting from the empty registry, for any sequence of
`device-attach`/`device-detach` events in which every event's VM reports
running, every attach's device class is one of `DEV_TYPES` and every
detach's key is registered when it is processed, a VM name is in the
registry's attachment set of a device key exactly when an attach of that
(device, VM) pair occurs later in the sequence than any detach of the same
pair. -/
theorem attach_detach_history (evs : List DevEvent) (key vmName : String)
    (hok : eventsOk evs = true)
    (hknown : detachesKnown emptyTray evs = true) :
    vmName ∈ attachmentsOf ((applyDevEvents emptyTray evs).devices) key ↔
      lastAction evs key vmName = some true := by
  rw [applyDevEvents_mem_attachments evs emptyTray key vmName hok]
  cases hla : lastAction evs key vmName with
  | none => simp [emptyTray, attachmentsOf, Dict.lookup]
  | some b =>
    cases b with
    | true => simp
    | false => simp

/-- Witness for C2: attach to `work`, detach from `work`, attach to
`vault`; afterwards only `vault` is in the device's attachment set. -/
theorem attach_detach_history_witness :
    eventsOk [DevEvent.attach "work" (.ok true) devUsb,
      DevEvent.detach "work" (.ok true) "sys-usb:dev1",
      DevEvent.attach "vault" (.ok true) devUsb] = true ∧
    detachesKnown emptyTray [DevEvent.attach "work" (.ok true) devUsb,
      DevEvent.detach "work" (.ok true) "sys-usb:dev1",
      DevEvent.attach "vault" (.ok true) devUsb] = true ∧
    ("vault" ∈ attachmentsOf ((applyDevEvents emptyTray
        [DevEvent.attach "work" (.ok true) devUsb,
         DevEvent.detach "work" (.ok true) "sys-usb:dev1",
         DevEvent.attach "vault" (.ok true) devUsb]).devices) "sys-usb:dev1" ↔
      lastAction [DevEvent.attach "work" (.ok true) devUsb,
        DevEvent.detach "work" (.ok true) "sys-usb:dev1",
        DevEvent.attach "vault" (.ok true) devUsb] "sys-usb:dev1" "vault" =
          some true) :=
  ⟨by decide, by decide,
   attach_detach_history
     [DevEvent.attach "work" (.ok true) devUsb,
      DevEvent.detach "work" (.ok true) "sys-usb:dev1",
      DevEvent.attach "vault" (.ok true) devUsb]
     "sys-usb:dev1" "vault" (by decide) (by decide)⟩

/-! ### C3: coalescing notifications for added/removed devices -/

theorem notifyFold_spec (devs known : List Device) (ts : List Timer)
    (hnd : (devs.map Device.dev_name).Nodup) :
    notifyFold devs (known, ts) =
      (known ++ devs.filter (fun d =>
        !(known.any (fun k => k.dev_name == d.dev_name))),
       ts ++ (devs.filter (fun d =>
        !(known.any (fun k => k.dev_name == d.dev_name)))).map
          (fun d => { delay_ms := 5000, dev := d })) := by
  induction devs generalizing known ts with
  | nil => simp [notifyFold]
  | cons c cs ih =>
    simp only [List.map_cons, List.nodup_cons] at hnd
    have hstep : notifyFold (c :: cs) (known, ts) =
        notifyFold cs
          (if known.any (fun d => d.dev_name == c.dev_name) then (known, ts)
           else (known ++ [c], ts ++ [{ delay_ms := 5000, dev := c }])) := rfl
    rw [hstep]
    by_cases hk : known.any (fun d => d.dev_name == c.dev_name) = true
    · rw [if_pos hk, ih known ts hnd.2]
      have hfc : (c :: cs).filter (fun d =>
          !(known.any (fun k => k.dev_name == d.dev_name))) =
          cs.filter (fun d =>
            !(known.any (fun k => k.dev_name == d.dev_name))) := by
        rw [List.filter_cons]
        simp [hk]
      rw [hfc]
    · rw [if_neg hk]
      rw [ih (known ++ [c]) (ts ++ [Timer.mk 5000 c]) hnd.2]
      have hfil : cs.filter (fun d =>
          !((known ++ [c]).any (fun k => k.dev_name == d.dev_name))) =
          cs.filter (fun d =>
            !(known.any (fun k => k.dev_name == d.dev_name))) := by
        apply List.filter_congr
        intro d hd
        have hne : c.dev_name ≠ d.dev_name := by
          intro he
          exact hnd.1 (by rw [he]; exact List.mem_map.mpr ⟨d, hd, rfl⟩)
        simp [List.any_append, hne]
      rw [hfil]
      have hfc : (c :: cs).filter (fun d =>
          !(known.any (fun k => k.dev_name == d.dev_name))) =
          c :: cs.filter (fun d =>
            !(known.any (fun k => k.dev_name == d.dev_name))) := by
        rw [List.filter_cons]
        simp [hk]
      rw [hfc]
      simp

/-- C3: inserting a batch of devices into a VM's added-buffer (and
symmetrically the removed-buffer) appends exactly the devices not yet
buffered by name, schedules one 5000 ms expiry timer per appended device,
and emits exactly one notification whose body lists the whole resulting
buffer's descriptions sorted, joined by newlines, under the identity
`'device-added-' + vm` (resp. `'device-removed-' + vm`); inserting `A`
then `B` into an empty added-buffer yields a final body listing both
sorted, and firing the two scheduled expiry timers leaves the buffer
empty. -/
theorem notify_devices_spec (st stR st0 : TrayState) (vmName : String)
    (devs : List Device) (A B : Device)
    (hnd : (devs.map Device.dev_name).Nodup)
    (hAB : A.dev_name ≠ B.dev_name)
    (h0 : st0.devs_added = []) :
    (let known := (Dict.lookup st.devs_added vmName).getD [];
     let appended := devs.filter (fun d =>
       !(known.any (fun k => k.dev_name == d.dev_name)));
     (notify_devices_added vmName devs st).1.devs_added =
       Dict.insert st.devs_added vmName (known ++ appended) ∧
     (notify_devices_added vmName devs st).2.1 =
       appended.map (fun d => Timer.mk 5000 d) ∧
     (notify_devices_added vmName devs st).2.2 =
       [emit_notification ("Devices added on " ++ vmName)
         (String.intercalate "\n"
           (pyStringSort ((known ++ appended).map (fun d => d.description))))
         .low false (some ("device-added-" ++ vmName))]) ∧
    (let knownR := (Dict.lookup stR.devs_removed vmName).getD [];
     let appendedR := devs.filter (fun d =>
       !(knownR.any (fun k => k.dev_name == d.dev_name)));
     (notify_devices_removed vmName devs stR).1.devs_removed =
       Dict.insert stR.devs_removed vmName (knownR ++ appendedR) ∧
     (notify_devices_removed vmName devs stR).2.1 =
       appendedR.map (fun d => Timer.mk 5000 d) ∧
     (notify_devices_removed vmName devs stR).2.2 =
       [emit_notification ("Devices removed on " ++ vmName)
         (String.intercalate "\n"
           (pyStringSort ((knownR ++ appendedR).map (fun d => d.description))))
         .low false (some ("device-removed-" ++ vmName))]) ∧
    ((notify_devices_added vmName [B]
        (notify_devices_added vmName [A] st0).1).2.2 =
       [emit_notification ("Devices added on " ++ vmName)
         (String.intercalate "\n"
           (pyStringSort [A.description, B.description]))
         .low false (some ("device-added-" ++ vmName))] ∧
     (_remove_notify_added B (_remove_notify_added A
        (notify_devices_added vmName [B]
          (notify_devices_added vmName [A] st0).1).1).1).1.devs_added = []) := by
  refine ⟨?_, ?_, ?_⟩
  · intro known appended
    simp only [notify_devices_added]
    rw [notifyFold_spec devs known [] hnd]
    exact ⟨rfl, by simp, rfl⟩
  · intro knownR appendedR
    simp only [notify_devices_removed]
    rw [notifyFold_spec devs knownR [] hnd]
    exact ⟨rfl, by simp, rfl⟩
  · have e1 : (notify_devices_added vmName [A] st0).1.devs_added =
        [(vmName, [A])] := by
      simp [notify_devices_added, h0, Dict.lookup, Dict.insert, notifyFold]
    set S := (notify_devices_added vmName [A] st0).1 with hS
    have e2 : (notify_devices_added vmName [B] S).1.devs_added =
        [(vmName, [A, B])] := by
      simp [notify_devices_added, e1, Dict.lookup, Dict.insert, notifyFold,
        hAB, Ne.symm hAB]
    constructor
    · simp [notify_devices_added, e1, Dict.lookup, Dict.insert, notifyFold,
        hAB, Ne.symm hAB]
    · set T := (notify_devices_added vmName [B] S).1 with hT
      have e3 : (_remove_notify_added A T).1.devs_added = [(vmName, [B])] := by
        simp [_remove_notify_added, e2, removeFirstByName, Ne.symm hAB, hAB]
      set U := (_remove_notify_added A T).1 with hU
      simp [_remove_notify_added, e3, removeFirstByName]

/-- Witness for C3: one insertion into `work`'s buffers and the A-then-B
scenario with `devUsb` and `devCam`. -/
theorem notify_devices_spec_witness :
    ([devCam].map Device.dev_name).Nodup ∧
    devUsb.dev_name ≠ devCam.dev_name ∧
    trayEx.devs_added = [] ∧
    ((let known := (Dict.lookup trayEx.devs_added "work").getD [];
      let appended := [devCam].filter (fun d =>
        !(known.any (fun k => k.dev_name == d.dev_name)));
      (notify_devices_added "work" [devCam] trayEx).1.devs_added =
        Dict.insert trayEx.devs_added "work" (known ++ appended) ∧
      (notify_devices_added "work" [devCam] trayEx).2.1 =
        appended.map (fun d => Timer.mk 5000 d) ∧
      (notify_devices_added "work" [devCam] trayEx).2.2 =
        [emit_notification ("Devices added on " ++ "work")
          (String.intercalate "\n"
            (pyStringSort ((known ++ appended).map (fun d => d.description))))
          .low false (some ("device-added-" ++ "work"))]) ∧
     (let knownR := (Dict.lookup trayEx.devs_removed "work").getD [];
      let appendedR := [devCam].filter (fun d =>
        !(knownR.any (fun k => k.dev_name == d.dev_name)));
      (notify_devices_removed "work" [devCam] trayEx).1.devs_removed =
        Dict.insert trayEx.devs_removed "work" (knownR ++ appendedR) ∧
      (notify_devices_removed "work" [devCam] trayEx).2.1 =
        appendedR.map (fun d => Timer.mk 5000 d) ∧
      (notify_devices_removed "work" [devCam] trayEx).2.2 =
        [emit_notification ("Devices removed on " ++ "work")
          (String.intercalate "\n"
            (pyStringSort ((knownR ++ appendedR).map (fun d => d.description))))
          .low false (some ("device-removed-" ++ "work"))]) ∧
     ((notify_devices_added "work" [devCam]
         (notify_devices_added "work" [devUsb] trayEx).1).2.2 =
        [emit_notification ("Devices added on " ++ "work")
          (String.intercalate "\n"
            (pyStringSort [devUsb.description, devCam.description]))
          .low false (some ("device-added-" ++ "work"))] ∧
      (_remove_notify_added devCam (_remove_notify_added devUsb
         (notify_devices_added "work" [devCam]
           (notify_devices_added "work" [devUsb] trayEx).1).1).1).1.devs_added =
        [])) :=
  ⟨by decide, by decide, rfl,
   notify_devices_spec trayEx trayEx trayEx "work" [devCam] devUsb devCam
     (by decide) (by decide) rfl⟩

/-! ### C10: the expiry callback evicts by name across all buffers -/

theorem removeFirst_eq_filter (name : String) (l : List Device)
    (hnd : (l.map Device.dev_name).Nodup) :
    (if l.any (fun d => d.dev_name == name) then removeFirstByName name l
     else l) = l.filter (fun d => d.dev_name ≠ name) := by
  induction l with
  | nil => simp [removeFirstByName]
  | cons c cs ih =>
    simp only [List.map_cons, List.nodup_cons] at hnd
    by_cases hc : c.dev_name = name
    · have hany : (c :: cs).any (fun d => d.dev_name == name) = true := by
        simp [hc]
      rw [if_pos hany]
      have hrm : removeFirstByName name (c :: cs) = cs := by
        simp [removeFirstByName, hc]
      rw [hrm, List.filter_cons]
      have hkeep : cs.filter (fun d => d.dev_name ≠ name) = cs := by
        apply List.filter_eq_self.mpr
        intro a ha
        have : a.dev_name ≠ name := by
          intro he
          exact hnd.1 (by
            rw [hc, ← he]
            exact List.mem_map.mpr ⟨a, ha, rfl⟩)
        simp [this]
      simp only [ne_eq, decide_not] at hkeep
      simp [hc, hkeep]
    · have hhead : (c.dev_name == name) = false := by
        simp [hc]
      have hrm : removeFirstByName name (c :: cs) =
          c :: removeFirstByName name cs := by
        simp [removeFirstByName, hc]
      rw [List.filter_cons]
      by_cases hcs : cs.any (fun d => d.dev_name == name) = true
      · have hany : (c :: cs).any (fun d => d.dev_name == name) = true := by
          simp [hcs]
        rw [if_pos hany, hrm]
        rw [if_pos hcs] at ih
        simp [hc, ih hnd.2]
      · have hany : (c :: cs).any (fun d => d.dev_name == name) = false := by
          simp [hhead]
          simpa using hcs
        rw [Bool.not_eq_true] at hcs
        rw [hany]
        rw [if_neg (by simp [hcs])] at ih
        have hxx := ih hnd.2
        simp only [ne_eq, decide_not] at hxx
        simp [hc, ← hxx]

/-- C10: when the delayed-removal callback fires for a device `d` in
either direction, `d` is evicted by name from that direction's buffer of
every VM (not just the scheduling VM), every VM whose buffer is thereby
empty is dropped from the mapping, all other buffered devices keep their
membership (the buffers equal the name-filtered originals), the other
direction's buffers and the registry are untouched, and no notification is
emitted. -/
theorem remove_notify_evicts (st : TrayState) (dev : Device)
    (hnd : ∀ p ∈ st.devs_added, (p.2.map Device.dev_name).Nodup)
    (hndR : ∀ p ∈ st.devs_removed, (p.2.map Device.dev_name).Nodup) :
    (_remove_notify_added dev st).1.devs_added =
      (st.devs_added.map (fun p =>
        (p.1, p.2.filter (fun d => d.dev_name ≠ dev.dev_name)))).filter
          (fun p => ¬ p.2.isEmpty) ∧
    (_remove_notify_added dev st).2 = [] ∧
    (_remove_notify_added dev st).1.devices = st.devices ∧
    (_remove_notify_added dev st).1.devs_removed = st.devs_removed ∧
    (_remove_notify_removed dev st).1.devs_removed =
      (st.devs_removed.map (fun p =>
        (p.1, p.2.filter (fun d => d.dev_name ≠ dev.dev_name)))).filter
          (fun p => ¬ p.2.isEmpty) ∧
    (_remove_notify_removed dev st).2 = [] ∧
    (_remove_notify_removed dev st).1.devices = st.devices ∧
    (_remove_notify_removed dev st).1.devs_added = st.devs_added := by
  refine ⟨?_, rfl, rfl, rfl, ?_, rfl, rfl, rfl⟩
  · show ((st.devs_added.map (fun p =>
      (p.1, if p.2.any (fun d => d.dev_name == dev.dev_name) then
              removeFirstByName dev.dev_name p.2
            else p.2))).filter (fun p => ¬ p.2.isEmpty)) = _
    congr 1
    apply List.map_congr_left
    intro p hp
    rw [removeFirst_eq_filter dev.dev_name p.2 (hnd p hp)]
  · show ((st.devs_removed.map (fun p =>
      (p.1, if p.2.any (fun d => d.dev_name == dev.dev_name) then
              removeFirstByName dev.dev_name p.2
            else p.2))).filter (fun p => ¬ p.2.isEmpty)) = _
    congr 1
    apply List.map_congr_left
    intro p hp
    rw [removeFirst_eq_filter dev.dev_name p.2 (hndR p hp)]

/-- A tray state with populated notification buffers. -/
def trayBuf : TrayState :=
  { devices := []
    vms := []
    devs_added := [("work", [devUsb]), ("vault", [devUsb, devCam])]
    devs_removed := [("work", [devCam])] }

/-- Witness for C10: firing the timer for `devUsb` empties `work`'s
added-buffer (deleting the entry) and shrinks `vault`'s. -/
theorem remove_notify_evicts_witness :
    (∀ p ∈ trayBuf.devs_added, (p.2.map Device.dev_name).Nodup) ∧
    (∀ p ∈ trayBuf.devs_removed, (p.2.map Device.dev_name).Nodup) ∧
    ((_remove_notify_added devUsb trayBuf).1.devs_added =
      (trayBuf.devs_added.map (fun p =>
        (p.1, p.2.filter (fun d => d.dev_name ≠ devUsb.dev_name)))).filter
          (fun p => ¬ p.2.isEmpty) ∧
    (_remove_notify_added devUsb trayBuf).2 = [] ∧
    (_remove_notify_added devUsb trayBuf).1.devices = trayBuf.devices ∧
    (_remove_notify_added devUsb trayBuf).1.devs_removed =
      trayBuf.devs_removed ∧
    (_remove_notify_removed devUsb trayBuf).1.devs_removed =
      (trayBuf.devs_removed.map (fun p =>
        (p.1, p.2.filter (fun d => d.dev_name ≠ devUsb.dev_name)))).filter
          (fun p => ¬ p.2.isEmpty) ∧
    (_remove_notify_removed devUsb trayBuf).2 = [] ∧
    (_remove_notify_removed devUsb trayBuf).1.devices = trayBuf.devices ∧
    (_remove_notify_removed devUsb trayBuf).1.devs_added =
      trayBuf.devs_added) :=
  ⟨by decide, by decide,
   remove_notify_evicts trayBuf devUsb (by decide) (by decide)⟩

/-! ### C5: the detach-all-then-attach toggle -/

theorem resync_inner_mem (key dn : String) (l : List String)
    (acc : List String) (n : String) :
    n ∈ l.foldl (fun a2 s => if s == key then setAdd a2 dn else a2) acc ↔
      n ∈ acc ∨ (key ∈ l ∧ n = dn) := by
  induction l generalizing acc with
  | nil => simp
  | cons s rest ih =>
    rw [List.foldl_cons]
    by_cases hs : s = key
    · rw [if_pos (by simp [hs])]
      rw [ih]
      rw [mem_setAdd]
      constructor
      · rintro ((hm | rfl) | ⟨hk, rfl⟩)
        · exact Or.inl hm
        · exact Or.inr ⟨by simp [hs], rfl⟩
        · exact Or.inr ⟨by simp [hs], rfl⟩
      · rintro (hm | ⟨hk, rfl⟩)
        · exact Or.inl (Or.inl hm)
        · exact Or.inl (Or.inr rfl)
    · rw [if_neg (by simp [hs])]
      rw [ih]
      constructor
      · rintro (hm | ⟨hk, rfl⟩)
        · exact Or.inl hm
        · exact Or.inr ⟨List.mem_cons_of_mem s hk, rfl⟩
      · rintro (hm | ⟨hk, rfl⟩)
        · exact Or.inl hm
        · rcases List.mem_cons.mp hk with he | hk2
          · exact absurd he.symm hs
          · exact Or.inr ⟨hk2, rfl⟩

theorem resync_outer_mem (key : String) (domains : List ResyncDomain)
    (acc : List String) (n : String) :
    n ∈ domains.foldl (fun a dom =>
        match dom.attachedNames with
        | .error _ => a
        | .ok l => l.foldl (fun a2 s =>
            if s == key then setAdd a2 dom.name else a2) a) acc ↔
      n ∈ acc ∨ ∃ dq ∈ domains, dq.name = n ∧
        ∃ l, dq.attachedNames = Except.ok l ∧ key ∈ l := by
  induction domains generalizing acc with
  | nil => simp
  | cons dq rest ih =>
    rw [List.foldl_cons]
    cases hq : dq.attachedNames with
    | error e =>
      rw [ih]
      constructor
      · rintro (hm | hex)
        · exact Or.inl hm
        · rcases hex with ⟨d2, hd2, hrest⟩
          exact Or.inr ⟨d2, List.mem_cons_of_mem dq hd2, hrest⟩
      · rintro (hm | ⟨d2, hd2, hname, l, hl, hkey⟩)
        · exact Or.inl hm
        · rcases List.mem_cons.mp hd2 with rfl | hd2r
          · rw [hq] at hl
            exact absurd hl (by simp)
          · exact Or.inr ⟨d2, hd2r, hname, l, hl, hkey⟩
    | ok l =>
      rw [ih, resync_inner_mem]
      constructor
      · rintro ((hm | ⟨hk, rfl⟩) | hex)
        · exact Or.inl hm
        · exact Or.inr ⟨dq, List.mem_cons_self dq rest, rfl, l, hq, hk⟩
        · rcases hex with ⟨d2, hd2, hrest⟩
          exact Or.inr ⟨d2, List.mem_cons_of_mem dq hd2, hrest⟩
      · rintro (hm | ⟨d2, hd2, hname, l2, hl2, hkey⟩)
        · exact Or.inl (Or.inl hm)
        · rcases List.mem_cons.mp hd2 with rfl | hd2r
          · rw [hq] at hl2
            have : l = l2 := by
              cases hl2
              rfl
            exact Or.inl (Or.inr ⟨by rw [this]; exact hkey, hname.symm⟩)
          · exact Or.inr ⟨d2, hd2r, hname, l2, hl2, hkey⟩

theorem update_dev_attachments_mem (dev : Device)
    (domains : List ResyncDomain) (n : String) :
    n ∈ (update_dev_attachments dev domains).attachments ↔
      ∃ dq ∈ domains, dq.name = n ∧
        ∃ l, dq.attachedNames = Except.ok l ∧ dev.dev_name ∈ l := by
  show n ∈ domains.foldl _ [] ↔ _
  rw [resync_outer_mem dev.dev_name domains [] n]
  simp

/-- C5: toggling a device currently attached exactly to `{x}` toward
target `y` issues exactly one external detach call, for `x`, and it comes
before any attach call; when the detach call raises a domain exception, no
attach call is ever issued, an error-flagged notification is emitted, and
the device's attachment set is recomputed from every readable domain's
attached-device listing; when both external calls succeed the device
record (its attachment set included) is not mutated. -/
theorem attach_item_toggle (dev : Device) (x y : String) (env : ToggleEnv)
    (h : dev.attachments = [x]) :
    (attach_item dev y env).2.1 =
      (if env.detachRes x then [ExtCall.detach x, ExtCall.attach y]
       else [ExtCall.detach x]) ∧
    (env.detachRes x = false →
      (∀ v, ExtCall.attach v ∉ (attach_item dev y env).2.1) ∧
      (∃ nf ∈ (attach_item dev y env).2.2, nf.error = true) ∧
      (∀ n, n ∈ (attach_item dev y env).1.attachments ↔
        ∃ dq ∈ env.domains, dq.name = n ∧
          ∃ l, dq.attachedNames = Except.ok l ∧ dev.dev_name ∈ l)) ∧
    (env.detachRes x = true → env.attachRes = true →
      (attach_item dev y env).1 = dev) := by
  by_cases hdx : env.detachRes x
  · have hd : detach_item dev env =
        (true, dev, [ExtCall.detach x],
         [emit_notification "Detaching device"
           ("Detaching " ++ dev.description ++ " from " ++ x) .normal false
           (toggleTag dev)]) := by
      simp [detach_item, h, detachLoop, hdx]
    refine ⟨?_, ?_, ?_⟩
    · by_cases hax : env.attachRes
      · simp [attach_item, hd, hax, hdx]
      · simp [attach_item, hd, hax, hdx]
    · intro he
      rw [he] at hdx
      exact absurd hdx (by simp)
    · intro _ hax
      simp [attach_item, hd, hax]
  · have hd : detach_item dev env =
        (false, update_dev_attachments dev env.domains, [ExtCall.detach x],
         [emit_notification "Detaching device"
           ("Detaching " ++ dev.description ++ " from " ++ x) .normal false
           (toggleTag dev),
          emit_notification "Error"
           ("Detaching device " ++ dev.description ++ " from " ++ x ++
             " failed.") .high true (toggleTag dev)]) := by
      simp [detach_item, h, detachLoop, hdx]
    refine ⟨?_, ?_, ?_⟩
    · simp [attach_item, hd, hdx]
    · intro _
      refine ⟨?_, ?_, ?_⟩
      · intro v
        simp [attach_item, hd]
      · refine ⟨emit_notification "Error"
          ("Detaching device " ++ dev.description ++ " from " ++ x ++
            " failed.") .high true (toggleTag dev), ?_, rfl⟩
        simp [attach_item, hd]
      · intro n
        have hr1 : (attach_item dev y env).1 =
            update_dev_attachments dev env.domains := by
          simp [attach_item, hd]
        rw [hr1]
        exact update_dev_attachments_mem dev env.domains n
    · intro hdx'
      rw [hdx'] at hdx
      exact absurd rfl hdx

/-- The sample device attached exactly to `work`. -/
def devAtt : Device :=
  { devUsb with attachments := ["work"] }

/-- A toggle environment whose detach calls raise, with one readable and
one unreadable domain for the reconciliation read. -/
def envEx : ToggleEnv where
  detachRes := fun _ => false
  attachRes := true
  domains := [{ name := "personal", attachedNames := Except.ok ["sys-usb:dev1"] },
              { name := "blocked", attachedNames := Except.error () }]

/-- Witness for C5: toggling `devAtt` toward `vault` when the detach call
for `work` fails. -/
theorem attach_item_toggle_witness :
    devAtt.attachments = ["work"] ∧
    ((attach_item devAtt "vault" envEx).2.1 =
      (if envEx.detachRes "work" then
        [ExtCall.detach "work", ExtCall.attach "vault"]
       else [ExtCall.detach "work"]) ∧
    (envEx.detachRes "work" = false →
      (∀ v, ExtCall.attach v ∉ (attach_item devAtt "vault" envEx).2.1) ∧
      (∃ nf ∈ (attach_item devAtt "vault" envEx).2.2, nf.error = true) ∧
      (∀ n, n ∈ (attach_item devAtt "vault" envEx).1.attachments ↔
        ∃ dq ∈ envEx.domains, dq.name = n ∧
          ∃ l, dq.attachedNames = Except.ok l ∧ devAtt.dev_name ∈ l)) ∧
    (envEx.detachRes "work" = true → envEx.attachRes = true →
      (attach_item devAtt "vault" envEx).1 = devAtt)) :=
  ⟨rfl, attach_item_toggle devAtt "work" "vault" envEx rfl⟩
